import Mathlib

/-!
Verification of the ANSI/CSI escape-sequence parser of the repository
(`alot/utils/ansi.py` and `alot/widgets/ansi.py`).

Text is modelled as `List Char`.  The Python module scans a string for ESC
bytes, matches the CSI grammar with the regex

  `\033\[`  `[0-9:;<=>?]*` (parameter bytes)  `[ !"#$%&'()*+,-./]*`
  (intermediate bytes)  `[A-Z[\]^_`a-z{|}~]` (final byte)

and yields `(code, args, text)` segments.  The parameter-byte and
intermediate-byte classes are contiguous ASCII ranges and the final-byte
class is a contiguous range minus the backslash (the `\]` in the class is
an escaped `]`, so `\` itself is not a member); the three classes are
pairwise disjoint, so greedy matching without backtracking is exact and the
matcher below is a direct transcription.
-/

namespace AlotAnsi

/-- The ESC byte `\033`. -/
def ESCc : Char := '\x1b'

/-- Parameter bytes: the regex class `[0-9:;<=>?]`, i.e. ASCII 0x30–0x3F. -/
def isParamByte (c : Char) : Bool := '0' ≤ c && c ≤ '?'

/-- Intermediate bytes: the regex class of space and punctuation
`[ !"#$%&'()*+,-./]`, i.e. ASCII 0x20–0x2F. -/
def isIntermediateByte (c : Char) : Bool := ' ' ≤ c && c ≤ '/'

/-- Final byte: the regex class of letters, brackets, braces and related
punctuation.  The `\]` in the class is an escaped `]`, so the members are
`A`-`Z`, `[`, `]`, `^`, `_`, the backquote, `a`-`z`, `{`, `|`, `}` and `~`:
ASCII 0x41–0x7E with the backslash 0x5C excluded. -/
def isFinalByte (c : Char) : Bool := 'A' ≤ c && c ≤ '~' && c ≠ '\\'

/-- The three captured groups of a CSI match
(`pb` parameter bytes, `ib` intermediate bytes, `fb` final byte). -/
structure Csi where
  pb : List Char
  ib : List Char
  fb : Char
deriving DecidableEq

/-- Matching of `csi_pattern` on the text that follows the two introducer
bytes `ESC [`.  Returns the groups and the remainder of the text after
`m.end()` on success (the regex is anchored at the match position, and its
three classes are pairwise disjoint, so the greedy match is exact). -/
def csi_groups (t : List Char) : Option (Csi × List Char) :=
  let pb := t.takeWhile isParamByte
  let t1 := t.dropWhile isParamByte
  let ib := t1.takeWhile isIntermediateByte
  let t2 := t1.dropWhile isIntermediateByte
  match t2 with
  | [] => none
  | f :: t3 => if isFinalByte f then some (⟨pb, ib, f⟩, t3) else none

/-- `parse_csi(text, pos)` with the text sliced at `pos`: the pattern first
requires the two introducer bytes `ESC [`, then the groups.  `none` models the
`(None, -1)` failure return. -/
def parse_csi (l : List Char) : Option (Csi × List Char) :=
  match l with
  | c1 :: c2 :: t => if c1 = ESCc && c2 = '[' then csi_groups t else none
  | _ => none

/-- One yielded element of `parse_ansi_escapes`: the code character after the
previous recognized escape's ESC (always `'['` when present), that escape's
match groups, and the literal text that followed it. -/
structure Seg where
  code : Option Char
  args : Option Csi
  txt : List Char
deriving DecidableEq

/-- The scanning loop of `parse_ansi_escapes`.  `acc` is `text[i:j]` (the
pending segment text already scanned past, which includes the bytes of
unrecognized escapes, since `i` is not advanced for them) and `rest` is
`text[j:]`.  The loop advances the cursor by at least two characters per
iteration, so the fuel `text.length + 1` used by `parse_ansi_escapes` is
never exhausted and the zero-fuel branch coincides with the loop's final
`yield code, args, text[i:]`. -/
def scanGo (code : Option Char) (args : Option Csi) (acc rest : List Char) :
    Nat → List Seg
  | 0 => [⟨code, args, acc ++ rest⟩]
  | fuel + 1 =>
    let pre := rest.takeWhile (fun ch => ch != ESCc)
    match rest.dropWhile (fun ch => ch != ESCc) with
    | [] => [⟨code, args, acc ++ rest⟩]
    | [_] => [⟨code, args, acc ++ rest⟩]
    | e :: c :: t =>
      if c = '[' then
        match csi_groups t with
        | some (g, rem) =>
          ⟨code, args, acc ++ pre⟩ :: scanGo (some '[') (some g) [] rem fuel
        | none => scanGo code args (acc ++ pre ++ [e, c]) t fuel
      else scanGo code args (acc ++ pre ++ [e, c]) t fuel

/-- `parse_ansi_escapes(text)`, materialized as the list of yielded
segments. -/
def parse_ansi_escapes (text : List Char) : List Seg :=
  scanGo none none [] text (text.length + 1)

/-- `strip_ansi_escapes(text)`: the concatenation of the segment texts. -/
def strip_ansi_escapes (text : List Char) : List Char :=
  ((parse_ansi_escapes text).map Seg.txt).flatten

example : strip_ansi_escapes "a\x1b[31mb".data = "ab".data := by decide

example : strip_ansi_escapes "\x1bXab".data = "\x1bXab".data := by decide

example : csi_groups "1;2\\x".data = none := by decide

example :
    strip_ansi_escapes "\x1b[1;2\\x".data = "\x1b[1;2\\x".data := by decide

example :
    strip_ansi_escapes "\x1b[3\x1b[31mm".data = "\x1b[3m".data := by decide

example :
    parse_ansi_escapes "a\x1b[31mb".data =
      [⟨none, none, ['a']⟩, ⟨some '[', some ⟨"31".data, [], 'm'⟩, ['b']⟩] := by
  decide

/-!
The widget layer (`alot/widgets/ansi.py`).  `parse_escapes_to_urwid` walks
the segments, keeps a cumulative attribute dictionary, and emits
`(urwid.AttrSpec, text)` runs plus a focus-attribute dictionary.
-/

/-- Python `str.split(sep)` for a one-character separator:
`"".split(sep) == [""]` and empty fields are kept. -/
def splitOnChar (sep : Char) : List Char → List (List Char)
  | [] => [[]]
  | c :: t =>
    if c = sep then [] :: splitOnChar sep t
    else (c :: (splitOnChar sep t).headD []) :: (splitOnChar sep t).tail

example : splitOnChar ';' "38;5;200".data = ["38".data, ['5'], "200".data] := by
  decide

example : splitOnChar ';' [] = [[]] := by decide

example : splitOnChar ';' ";;".data = [[], [], []] := by decide

/-- The attribute dictionary `attr`.  The Python dict holds the keys
`fg`, `bg`, `bold`, `underline`, `standout` after seeding/reset, and the
`ECODES` entries may add `italics`, `blink`, `strikethrough`; a key that is
absent behaves as `False` in `append_themed_infix`, so absent boolean keys
are modelled as `false`. -/
structure AttrState where
  fg : List Char
  bg : List Char
  bold : Bool
  italics : Bool
  underline : Bool
  blink : Bool
  standout : Bool
  strikethrough : Bool
deriving DecidableEq

/-- Model of `urwid.AttrSpec`, the value passed for `default_attr` and built
for each run: a foreground description string and a background description
string.  urwid derives the style flags of a spec from the comma-separated
attribute words of its foreground string (and its `foreground` property
reproduces them), so a spec is represented by those two strings and the flag
accessors below parse them the way urwid does. -/
structure AttrSpec where
  fg : List Char
  bg : List Char
deriving DecidableEq

/-- The comma-separated parts of a spec's foreground string. -/
def fg_parts (a : AttrSpec) : List (List Char) := splitOnChar ',' a.fg

/-- urwid's set of style-flag words (`urwid._ATTRIBUTES` styles). -/
def flag_words : List (List Char) :=
  ["bold".data, "italics".data, "underline".data, "blink".data,
   "standout".data, "strikethrough".data]

/-- `default_attr.foreground`: the foreground description string. -/
abbrev AttrSpec.foreground (a : AttrSpec) : List Char := a.fg

/-- `default_attr.background`: the background description string. -/
abbrev AttrSpec.background (a : AttrSpec) : List Char := a.bg

/-- `attrspec.bold`: the foreground string lists the `bold` flag. -/
abbrev AttrSpec.bold (a : AttrSpec) : Prop := "bold".data ∈ fg_parts a

/-- `attrspec.underline`: the foreground string lists the `underline`
flag. -/
abbrev AttrSpec.underline (a : AttrSpec) : Prop := "underline".data ∈ fg_parts a

/-- `attrspec.standout`: the foreground string lists the `standout` flag. -/
abbrev AttrSpec.standout (a : AttrSpec) : Prop := "standout".data ∈ fg_parts a

/-- The color (non-flag) parts of a spec's foreground string. -/
def fg_color_parts (a : AttrSpec) : List (List Char) :=
  (fg_parts a).filter (fun p => decide (p ∉ flag_words))

/-- `Bool` views of the three flags of the caller's `default_attr` that the
widget code reads. -/
def AttrSpec.boldB (a : AttrSpec) : Bool := decide a.bold

def AttrSpec.underlineB (a : AttrSpec) : Bool := decide a.underline

def AttrSpec.standoutB (a : AttrSpec) : Bool := decide a.standout

/-- The seeding of `attr` at the start of `parse_escapes_to_urwid`:
`dict(fg=default_attr.foreground, bg=default_attr.background,
bold=default_attr.bold, underline=default_attr.underline,
standout=default_attr.underline)` — note `standout` is taken from the
default *underline* flag. -/
def init_attr (d : AttrSpec) : AttrState :=
  { fg := d.foreground, bg := d.background, bold := d.boldB,
    italics := false, underline := d.underlineB, blink := false,
    standout := d.underlineB, strikethrough := false }

/-- `reset_attr()`: `attr.clear()` followed by the same update as the
seeding (so the extra style keys are absent again, i.e. `false`). -/
def reset_attr (d : AttrSpec) : AttrState :=
  { fg := d.foreground, bg := d.background, bold := d.boldB,
    italics := false, underline := d.underlineB, blink := false,
    standout := d.underlineB, strikethrough := false }

/-- The `ECODES` table: `attr.update(ECODES[param])` for a recognized
one-shot parameter, `none` when `param not in ECODES`. -/
def ecode_update (s : AttrState) (p : List Char) : Option AttrState :=
  match p with
  | ['1'] => some { s with bold := true }
  | ['3'] => some { s with italics := true }
  | ['4'] => some { s with underline := true }
  | ['5'] => some { s with blink := true }
  | ['7'] => some { s with standout := true }
  | ['9'] => some { s with strikethrough := true }
  | ['3', '0'] => some { s with fg := "black".data }
  | ['3', '1'] => some { s with fg := "dark red".data }
  | ['3', '2'] => some { s with fg := "dark green".data }
  | ['3', '3'] => some { s with fg := "brown".data }
  | ['3', '4'] => some { s with fg := "dark blue".data }
  | ['3', '5'] => some { s with fg := "dark magenta".data }
  | ['3', '6'] => some { s with fg := "dark cyan".data }
  | ['3', '7'] => some { s with fg := "light gray".data }
  | ['4', '0'] => some { s with bg := "black".data }
  | ['4', '1'] => some { s with bg := "dark red".data }
  | ['4', '2'] => some { s with bg := "dark green".data }
  | ['4', '3'] => some { s with bg := "brown".data }
  | ['4', '4'] => some { s with bg := "dark blue".data }
  | ['4', '5'] => some { s with bg := "dark magenta".data }
  | ['4', '6'] => some { s with bg := "dark cyan".data }
  | ['4', '7'] => some { s with bg := "light gray".data }
  | _ => none

/-- Python `int()` on the parameter tokens of this parser.  Parameter bytes
are drawn from `[0-9:;<=>?]` and `;` is the separator, so the tokens that can
reach `int()` consist of digits and `:<=>?` only; `int()` succeeds exactly on
the nonempty all-digit ones. -/
def to_int? (l : List Char) : Option Nat :=
  if l ≠ [] ∧ ∀ c ∈ l, '0' ≤ c ∧ c ≤ '9' then
    some (l.foldl (fun n c => n * 10 + (c.toNat - '0'.toNat)) 0)
  else none

/-- Python `f'{n:02x}'`: lowercase hexadecimal, zero-padded on the left to a
minimum width of two digits. -/
def py_hex2 (n : Nat) : List Char :=
  let ds := Nat.toDigits 16 n
  if ds.length < 2 then '0' :: ds else ds

example : py_hex2 10 = "0a".data := by decide

example : py_hex2 30 = "1e".data := by decide

/-- `if attr_name and attr_value: attr.update({attr_name: attr_value})`
where `attr_name` is `fg` for `38`, `bg` for `48` and empty (no update) for
`58`; an empty `attr_value` also suppresses the update. -/
def color_apply (s : AttrState) (p : List Char) (value : List Char) : AttrState :=
  if p = "38".data then (if value ≠ [] then { s with fg := value } else s)
  else if p = "48".data then (if value ≠ [] then { s with bg := value } else s)
  else s

/-- One iteration of the parameter-consuming `while True` loop of
`update_attr`, on the not-yet-consumed token list.  `Sum.inl` is the loop's
final state (the list is exhausted, or a `break` fired on `StopIteration`
while consuming extended-color parameters); `Sum.inr (s2, rest2)` continues
the loop with state `s2` on the remaining tokens `rest2`.  An unrecognized
extended-color type and non-integer RGB components merely leave
`attr_value` empty and continue with the remaining tokens. -/
def uap_step (d : AttrSpec) (s : AttrState) :
    List (List Char) → Sum AttrState (AttrState × List (List Char))
  | [] => Sum.inl s
  | p :: rest =>
    if p = [] ∨ p = ['0'] then Sum.inr (reset_attr d, rest)
    else
      match ecode_update s p with
      | some s1 => Sum.inr (s1, rest)
      | none =>
        if p = "38".data ∨ p = "48".data ∨ p = "58".data then
          match rest with
          | [] => Sum.inl s
          | ct :: rest2 =>
            if ct = ['5'] then
              match rest2 with
              | [] => Sum.inl s
              | idx :: rest3 => Sum.inr (color_apply s p ('h' :: idx), rest3)
            else if ct = ['2'] then
              match rest2 with
              | r :: g :: b :: rest5 =>
                let value :=
                  match to_int? r, to_int? g, to_int? b with
                  | some ri, some gi, some bi =>
                    '#' :: (py_hex2 ri ++ py_hex2 gi ++ py_hex2 bi)
                  | _, _, _ => []
                Sum.inr (color_apply s p value, rest5)
              | _ => Sum.inl s
            else Sum.inr (color_apply s p [], rest2)
        else Sum.inr (s, rest)

/-- The loop itself.  Every iteration consumes at least one token
(`uap_step_shrinks`), so with fuel equal to the number of tokens — as
supplied by `update_attr_params` — the zero-fuel branch is only reached
with an empty token list, where it returns the same state as the loop
exit; `uap_go_succ` makes the fuel-independence precise. -/
def uap_go (d : AttrSpec) (s : AttrState) (params : List (List Char)) :
    Nat → AttrState
  | 0 => s
  | fuel + 1 =>
    match uap_step d s params with
    | Sum.inl sf => sf
    | Sum.inr (s2, rest2) => uap_go d s2 rest2 fuel

/-- The parameter loop of `update_attr` on a token list. -/
def update_attr_params (d : AttrSpec) (s : AttrState)
    (params : List (List Char)) : AttrState :=
  uap_go d s params params.length

/-- A continuing loop iteration strictly shrinks the token list. -/
theorem uap_step_shrinks {d : AttrSpec} {s s2 : AttrState}
    {params rest2 : List (List Char)}
    (h : uap_step d s params = Sum.inr (s2, rest2)) :
    rest2.length < params.length := by
  cases params with
  | nil => simp [uap_step] at h
  | cons p rest =>
    simp only [uap_step] at h
    split at h
    · cases h
      simp
    · split at h
      · cases h
        simp
      · split at h
        · split at h
          · cases h
          · split at h
            · split at h
              · cases h
              · cases h
                simp [List.length_cons]
                omega
            · split at h
              · split at h
                · cases h
                  simp [List.length_cons]
                  omega
                · cases h
              · cases h
                simp only [List.length_cons]
                omega
        · cases h
          simp

/-- Sufficient fuel is irrelevant: any fuel of at least the number of
tokens gives the loop's value. -/
theorem uap_go_succ (d : AttrSpec) :
    ∀ (f : Nat) (s : AttrState) (params : List (List Char)),
      params.length ≤ f → uap_go d s params (f + 1) = uap_go d s params f := by
  intro f
  induction f with
  | zero =>
    intro s params h
    obtain rfl : params = [] := List.length_eq_zero.mp (Nat.le_zero.mp h)
    simp [uap_go, uap_step]
  | succ f ih =>
    intro s params h
    simp only [uap_go]
    cases hst : uap_step d s params with
    | inl sf => rfl
    | inr pr =>
      obtain ⟨s2, rest2⟩ := pr
      have hlen : rest2.length ≤ f :=
        Nat.lt_succ_iff.mp (Nat.lt_of_lt_of_le (uap_step_shrinks hst) h)
      exact ih s2 rest2 hlen

/-- Fuel of at least the number of tokens computes the loop. -/
theorem uap_go_sufficient (d : AttrSpec) (s : AttrState)
    (l : List (List Char)) :
    ∀ f, l.length ≤ f → uap_go d s l f = update_attr_params d s l := by
  intro f hf
  induction f, hf using Nat.le_induction with
  | base => rfl
  | succ f hf ih => rw [uap_go_succ d f s l hf, ih]

/-- A loop-exit iteration determines the value of the loop. -/
theorem update_attr_params_inl {d : AttrSpec} {s sf : AttrState}
    {params : List (List Char)} (h : uap_step d s params = Sum.inl sf) :
    update_attr_params d s params = sf := by
  cases params with
  | nil =>
    have : sf = s := by simpa [uap_step] using h.symm
    subst this
    rfl
  | cons p rest =>
    show uap_go d s (p :: rest) (rest.length + 1) = sf
    simp only [uap_go, h]

/-- A continuing iteration steps the loop. -/
theorem update_attr_params_inr {d : AttrSpec} {s s2 : AttrState}
    {params rest2 : List (List Char)}
    (h : uap_step d s params = Sum.inr (s2, rest2)) :
    update_attr_params d s params = update_attr_params d s2 rest2 := by
  cases params with
  | nil => simp [uap_step] at h
  | cons p rest =>
    have hlt : rest2.length ≤ rest.length :=
      Nat.lt_succ_iff.mp (by simpa [List.length_cons] using uap_step_shrinks h)
    show uap_go d s (p :: rest) (rest.length + 1) = _
    simp only [uap_go, h]
    exact uap_go_sufficient d s2 rest2 rest.length hlt

/-- One loop iteration on a reset parameter. -/
theorem uap_step_reset {p : List Char} (d : AttrSpec) (s : AttrState)
    (rest : List (List Char)) (hp : p = [] ∨ p = ['0']) :
    update_attr_params d s (p :: rest) =
      update_attr_params d (reset_attr d) rest := by
  rcases hp with h | h <;> subst h <;> exact update_attr_params_inr rfl

/-- One loop iteration on an extended-color parameter whose color type is
neither `5` nor `2`: no color is assigned and the loop continues with the
remaining parameters of the same escape. -/
theorem uap_step_color_unknown {p ct : List Char} (d : AttrSpec)
    (s : AttrState) (rest : List (List Char))
    (hp : p = "38".data ∨ p = "48".data ∨ p = "58".data)
    (h5 : ct ≠ ['5']) (h2 : ct ≠ ['2']) :
    update_attr_params d s (p :: ct :: rest) = update_attr_params d s rest := by
  have hstep : uap_step d s (p :: ct :: rest) =
      Sum.inr (color_apply s p [], rest) := by
    rcases hp with h | h | h <;> subst h <;>
    · show (if ct = ['5'] then
            match rest with
            | [] => Sum.inl s
            | idx :: rest3 =>
              Sum.inr (color_apply s _ ('h' :: idx), rest3)
          else if ct = ['2'] then
            match rest with
            | r :: g :: b :: rest5 =>
              let value :=
                match to_int? r, to_int? g, to_int? b with
                | some ri, some gi, some bi =>
                  '#' :: (py_hex2 ri ++ py_hex2 gi ++ py_hex2 bi)
                | _, _, _ => []
              Sum.inr (color_apply s _ value, rest5)
            | _ => Sum.inl s
          else Sum.inr (color_apply s _ [], rest)) =
          Sum.inr (color_apply s _ [], rest)
      rw [if_neg h5, if_neg h2]
  have happ : color_apply s p [] = s := by
    rcases hp with h | h | h <;> subst h <;> rfl
  rw [update_attr_params_inr hstep, happ]

/-- One loop iteration on an extended-color parameter with color type `5`:
the index token is consumed and the color applied. -/
theorem uap_step_color5 {p : List Char} (d : AttrSpec) (s : AttrState)
    (t : List Char) (rest : List (List Char))
    (hp : p = "38".data ∨ p = "48".data ∨ p = "58".data) :
    update_attr_params d s (p :: ['5'] :: t :: rest) =
      update_attr_params d (color_apply s p ('h' :: t)) rest := by
  refine update_attr_params_inr ?_
  rcases hp with h | h | h <;> subst h <;> rfl

/-- One loop iteration on an extended-color parameter with color type `2`:
three component tokens are consumed and the color applied when they all
parse as integers. -/
theorem uap_step_color2 {p : List Char} (d : AttrSpec) (s : AttrState)
    (r g b : List Char) (rest : List (List Char))
    (hp : p = "38".data ∨ p = "48".data ∨ p = "58".data) :
    update_attr_params d s (p :: ['2'] :: r :: g :: b :: rest) =
      update_attr_params d
        (color_apply s p
          (match to_int? r, to_int? g, to_int? b with
           | some ri, some gi, some bi =>
             '#' :: (py_hex2 ri ++ py_hex2 gi ++ py_hex2 bi)
           | _, _, _ => [])) rest := by
  refine update_attr_params_inr ?_
  rcases hp with h | h | h <;> subst h <;> rfl

/-- `update_attr(pb, ib, fb)`: only a final byte `m` changes the state; the
parameter-byte string is split on `;` with empty fields replaced by `0`. -/
def update_attr (d : AttrSpec) (s : AttrState) (pb : List Char)
    (_ib : List Char) (fb : Char) : AttrState :=
  if fb = 'm' then
    update_attr_params d s
      ((splitOnChar ';' pb).map (fun v => if v = [] then ['0'] else v))
  else s

/-- The `urwid_fg` suffix built by `append_themed_infix`: `,mod` appended
for each set modifier, in the order of `URWID_MODS`. -/
def mods_suffix (s : AttrState) : List Char :=
  (if s.bold then ',' :: "bold".data else []) ++
  (if s.underline then ',' :: "underline".data else []) ++
  (if s.standout then ',' :: "standout".data else []) ++
  (if s.blink then ',' :: "blink".data else []) ++
  (if s.italics then ',' :: "italics".data else []) ++
  (if s.strikethrough then ',' :: "strikethrough".data else [])

/-- The `urwid.AttrSpec(urwid_fg, urwid_bg)` built by `append_themed_infix`:
foreground is `attr['fg']` plus the modifier suffix; background is
`attr['bg']` when `parse_background` is set, else
`default_attr.background`. -/
def themed_attr (d : AttrSpec) (pbg : Bool) (s : AttrState) : AttrSpec :=
  ⟨s.fg ++ mods_suffix s, if pbg then s.bg else d.background⟩

/-- Python dict assignment `m[k] = v` on the focus mapping, keeping
insertion order. -/
def focus_put {α : Type} (m : List (Option AttrSpec × α)) (k : Option AttrSpec)
    (v : α) : List (Option AttrSpec × α) :=
  if m.any (fun e => decide (e.1 = k)) then
    m.map (fun e => if e.1 = k then (k, v) else e)
  else m ++ [(k, v)]

/-- The `for code, args, infix in ansi.parse_ansi_escapes(text)` loop:
`update_attr` when the code is `[`, then `append_themed_infix(infix)`, which
bails on empty text and otherwise appends a run and records the focus
attribute. -/
def process_segs {α : Type} (d : AttrSpec) (dF : α) (pbg : Bool) :
    AttrState → List (AttrSpec × List Char) → List (Option AttrSpec × α) →
    List Seg → List (AttrSpec × List Char) × List (Option AttrSpec × α)
  | _, runs, focus, [] => (runs, focus)
  | s, runs, focus, seg :: rest =>
    let s1 := match seg.code, seg.args with
              | some c, some g =>
                if c = '[' then update_attr d s g.pb g.ib g.fb else s
              | _, _ => s
    if seg.txt = [] then process_segs d dF pbg s1 runs focus rest
    else
      process_segs d dF pbg s1
        (runs ++ [(themed_attr d pbg s1, seg.txt)])
        (focus_put focus (some (themed_attr d pbg s1)) dF) rest

/-- `parse_escapes_to_urwid(text, default_attr, default_attr_focus,
parse_background)`: returns `(urwid_text, urwid_focus)`, the focus mapping
starting as `{None: default_attr_focus}`. -/
def parse_escapes_to_urwid {α : Type} (text : List Char) (d : AttrSpec)
    (dF : α) (pbg : Bool) :
    List (AttrSpec × List Char) × List (Option AttrSpec × α) :=
  process_segs d dF pbg (init_attr d) [] [(none, dF)] (parse_ansi_escapes text)

example :
    (parse_escapes_to_urwid "\x1b[31mRED".data
        ⟨"default".data, "default".data⟩ (0 : Nat) true).1 =
      [(⟨"dark red".data, "default".data⟩, "RED".data)] := by decide

example :
    (parse_escapes_to_urwid "\x1b[38;5;200mX".data
        ⟨"default".data, "default".data⟩ (0 : Nat) true).1 =
      [(⟨"h200".data, "default".data⟩, "X".data)] := by decide

example :
    (parse_escapes_to_urwid "\x1b[38;2;10;20;30mX".data
        ⟨"default".data, "default".data⟩ (0 : Nat) true).1 =
      [(⟨"#0a141e".data, "default".data⟩, "X".data)] := by decide

example :
    (parse_escapes_to_urwid "\x1b[1mB\x1b[0mN".data
        ⟨"default".data, "default".data⟩ (0 : Nat) true).1 =
      [(⟨"default,bold".data, "default".data⟩, ['B']),
       (⟨"default".data, "default".data⟩, ['N'])] := by decide

/-! Helper lemmas about the scanner. -/

theorem scan_no_esc {rest : List Char} (h : ESCc ∉ rest) :
    ∀ (f : Nat) (code : Option Char) (args : Option Csi) (acc : List Char),
      scanGo code args acc rest f = [⟨code, args, acc ++ rest⟩] := by
  intro f code args acc
  cases f with
  | zero => rfl
  | succ f =>
    have hd : rest.dropWhile (fun ch => ch != ESCc) = [] := by
      rw [List.dropWhile_eq_nil_iff]
      intro x hx
      simp only [bne_iff_ne, ne_eq]
      exact fun hxe => h (hxe ▸ hx)
    simp only [scanGo, hd]

theorem parse_no_esc {s : List Char} (h : ESCc ∉ s) :
    parse_ansi_escapes s = [⟨none, none, s⟩] := by
  unfold parse_ansi_escapes
  rw [scan_no_esc h]
  simp

theorem strip_no_esc {s : List Char} (h : ESCc ∉ s) :
    strip_ansi_escapes s = s := by
  unfold strip_ansi_escapes
  rw [parse_no_esc h]
  simp

/-- Scanning a recognized escape: the pending segment is emitted and the
scan continues after the match with the new code and groups. -/
theorem scan_csi_step {t rem : List Char} {g : Csi}
    (h : csi_groups t = some (g, rem)) (f : Nat) (code : Option Char)
    (args : Option Csi) (acc : List Char) :
    scanGo code args acc (ESCc :: '[' :: t) (f + 1) =
      ⟨code, args, acc⟩ :: scanGo (some '[') (some g) [] rem f := by
  simp [scanGo, h]

/-- Scanning an unrecognized escape (the byte after ESC is not `[`): the
cursor advances past the two bytes, which stay in the pending segment
text. -/
theorem scan_skip_step {c : Char} (hc : c ≠ '[') (t : List Char) (f : Nat)
    (code : Option Char) (args : Option Csi) (acc : List Char) :
    scanGo code args acc (ESCc :: c :: t) (f + 1) =
      scanGo code args (acc ++ [ESCc, c]) t f := by
  simp [scanGo, hc]

/-- Scanning an incomplete CSI (no final byte): same two-byte skip. -/
theorem scan_skip_csi_step {t : List Char} (h : csi_groups t = none) (f : Nat)
    (code : Option Char) (args : Option Csi) (acc : List Char) :
    scanGo code args acc (ESCc :: '[' :: t) (f + 1) =
      scanGo code args (acc ++ [ESCc, '[']) t f := by
  simp [scanGo, h]

/-! Helper lemmas about the splitter. -/

theorem splitOnChar_ne_nil (sep : Char) (l : List Char) :
    splitOnChar sep l ≠ [] := by
  cases l with
  | nil => simp [splitOnChar]
  | cons c t =>
    by_cases h : c = sep <;> simp [splitOnChar, h]

theorem splitOnChar_no_sep {sep : Char} {l : List Char} (h : sep ∉ l) :
    splitOnChar sep l = [l] := by
  induction l with
  | nil => rfl
  | cons c t ih =>
    have hc : c ≠ sep := fun hc => h (hc ▸ List.mem_cons_self c t)
    have ht : sep ∉ t := fun ht => h (List.mem_cons_of_mem c ht)
    simp [splitOnChar, hc, ih ht]

theorem splitOnChar_append (sep : Char) (xs ys : List Char) :
    splitOnChar sep (xs ++ sep :: ys) =
      splitOnChar sep xs ++ splitOnChar sep ys := by
  induction xs with
  | nil => simp [splitOnChar]
  | cons c t ih =>
    by_cases hc : c = sep
    · subst hc
      simp [splitOnChar, ih]
    · obtain ⟨a, b, hab⟩ : ∃ a b, splitOnChar sep t = a :: b := by
        cases hsp : splitOnChar sep t with
        | nil => exact absurd hsp (splitOnChar_ne_nil sep t)
        | cons a b => exact ⟨a, b, rfl⟩
      simp [splitOnChar, hc, ih, hab]

/-! Claim C1. -/

/-- C1 fails as stated: for `s = "\x1b[3\x1b[31mm"` the unrecognized
escape's bytes `ESC [ 3` stay in the stripped output and, once the
recognized escape between them is removed, they join with the trailing `m`
into the well-formed escape `"\x1b[3m"`, which a second strip removes. -/
theorem claim_C1_counterexample :
    strip_ansi_escapes "\x1b[3\x1b[31mm".data = "\x1b[3m".data ∧
    strip_ansi_escapes (strip_ansi_escapes "\x1b[3\x1b[31mm".data) ≠
      strip_ansi_escapes "\x1b[3\x1b[31mm".data := by decide

/-- C1 (amended): stripping is idempotent on every input whose stripped
form contains no ESC byte — in particular, applying the stripper to
ESC-free already-stripped text returns that text unchanged.  (An
unrecognized or incomplete escape leaves its ESC byte in the output, and a
second strip may then remove more.) -/
theorem claim_C1_amended (s : List Char)
    (h : ESCc ∉ strip_ansi_escapes s) :
    strip_ansi_escapes (strip_ansi_escapes s) = strip_ansi_escapes s :=
  strip_no_esc h

/-- C1 witness: a concrete input whose stripped form is ESC-free. -/
theorem claim_C1_witness :
    ESCc ∉ strip_ansi_escapes "a\x1b[31mb".data ∧
    strip_ansi_escapes (strip_ansi_escapes "a\x1b[31mb".data) =
      strip_ansi_escapes "a\x1b[31mb".data :=
  ⟨by decide, claim_C1_amended _ (by decide)⟩

/-! Claim C2. -/

/-- C2 fails as stated: for `"\x1bXab"` (the byte after ESC is not `[`) the
ESC byte and the following byte are NOT dropped from the stripped output —
the whole string comes back, not `"ab"`. -/
theorem claim_C2_counterexample :
    strip_ansi_escapes "\x1bXab".data = "\x1bXab".data ∧
    strip_ansi_escapes "\x1bXab".data ≠ "ab".data := by decide

/-- C2 (amended): on an unrecognized escape (the byte after ESC is not `[`,
or the CSI grammar fails), the scanner advances the cursor past exactly the
two bytes and continues scanning the remainder without raising, but the two
bytes stay in the pending segment text (they are appended to the
accumulator, so they ARE emitted and appear in the stripped output). -/
theorem claim_C2_amended (f : Nat) (code : Option Char) (args : Option Csi)
    (acc : List Char) (c : Char) (t rest : List Char) :
    (c ≠ '[' →
      scanGo code args acc (ESCc :: c :: t) (f + 1) =
        scanGo code args (acc ++ [ESCc, c]) t f) ∧
    (csi_groups t = none →
      scanGo code args acc (ESCc :: '[' :: t) (f + 1) =
        scanGo code args (acc ++ [ESCc, '[']) t f) ∧
    (c ≠ '[' → ESCc ∉ rest →
      strip_ansi_escapes (ESCc :: c :: rest) = ESCc :: c :: rest) := by
  refine ⟨fun hc => scan_skip_step hc t f code args acc,
          fun h => scan_skip_csi_step h f code args acc,
          fun hc hr => ?_⟩
  unfold strip_ansi_escapes parse_ansi_escapes
  simp only [List.length_cons]
  rw [scan_skip_step hc, scan_no_esc hr]
  simp

/-- C2 witness: the amended behavior at a concrete unrecognized escape and
a concrete incomplete CSI at end of input. -/
theorem claim_C2_witness :
    (scanGo none none [] (ESCc :: 'X' :: []) (4 + 1) =
      scanGo none none ([] ++ [ESCc, 'X']) [] 4) ∧
    (scanGo none none [] (ESCc :: '[' :: []) (4 + 1) =
      scanGo none none ([] ++ [ESCc, '[']) [] 4) ∧
    strip_ansi_escapes (ESCc :: 'X' :: "ab".data) = ESCc :: 'X' :: "ab".data :=
  ⟨(claim_C2_amended 4 none none [] 'X' [] "ab".data).1 (by decide),
   (claim_C2_amended 4 none none [] 'X' [] "ab".data).2.1 (by decide),
   (claim_C2_amended 4 none none [] 'X' [] "ab".data).2.2 (by decide) (by decide)⟩

/-! Claim C3. -/

/-- C3 fails as stated: in the escape `ESC[38;9;1m` the color type `9` is
neither `5` nor `2`, yet the later parameter `1` of the same escape IS
applied (bold becomes set), so the rest of the parameter list is not
abandoned. -/
theorem claim_C3_counterexample :
    (update_attr_params ⟨"default".data, "default".data⟩
        (init_attr ⟨"default".data, "default".data⟩)
        ["38".data, ['9'], ['1']]).bold = true ∧
    (init_attr ⟨"default".data, "default".data⟩).bold = false := by decide

/-- C3 (amended): for an extended-color parameter 38/48/58, running out of
parameters (at the color type, at the 8-bit index, or inside the three RGB
components) abandons the rest of that escape's parameter list; but a color
type other than `5` or `2` only forgoes the color assignment and processing
continues with the remaining parameters of the same escape. -/
theorem claim_C3_amended (d : AttrSpec) (s : AttrState)
    (p ct x y : List Char) (rest : List (List Char))
    (hp : p = "38".data ∨ p = "48".data ∨ p = "58".data)
    (hct5 : ct ≠ ['5']) (hct2 : ct ≠ ['2']) :
    update_attr_params d s [p] = s ∧
    update_attr_params d s (p :: ct :: rest) = update_attr_params d s rest ∧
    update_attr_params d s [p, ['5']] = s ∧
    update_attr_params d s [p, ['2']] = s ∧
    update_attr_params d s [p, ['2'], x] = s ∧
    update_attr_params d s [p, ['2'], x, y] = s := by
  refine ⟨?_, uap_step_color_unknown d s rest hp hct5 hct2, ?_, ?_, ?_, ?_⟩ <;>
    rcases hp with h | h | h <;> subst h <;> rfl

/-- C3 witness: the amended behavior at the concrete escape parameters
`38;9;1` (unknown color type, later parameter still processed) and at
concrete exhausted lists. -/
theorem claim_C3_witness :
    (update_attr_params ⟨"default".data, "default".data⟩
        (init_attr ⟨"default".data, "default".data⟩) ["38".data] =
      init_attr ⟨"default".data, "default".data⟩) ∧
    (update_attr_params ⟨"default".data, "default".data⟩
        (init_attr ⟨"default".data, "default".data⟩)
        ("38".data :: ['9'] :: [['1']]) =
      update_attr_params ⟨"default".data, "default".data⟩
        (init_attr ⟨"default".data, "default".data⟩) [['1']]) :=
  ⟨(claim_C3_amended ⟨"default".data, "default".data⟩
      (init_attr ⟨"default".data, "default".data⟩) "38".data ['9'] [] []
      [['1']] (Or.inl rfl) (by decide) (by decide)).1,
   (claim_C3_amended ⟨"default".data, "default".data⟩
      (init_attr ⟨"default".data, "default".data⟩) "38".data ['9'] [] []
      [['1']] (Or.inl rfl) (by decide) (by decide)).2.1⟩

/-! Claim C5. -/

/-- C5: a reset parameter (`0` or empty) replaces the attribute state by
exactly the reset state: DefaultAttr's foreground, background, bold and
underline values, with the standout flag taken from DefaultAttr's underline
flag (not from its standout value), and the remaining style flags cleared;
the initial state of each parse call is seeded identically. -/
theorem claim_C5_reset (d : AttrSpec) (s : AttrState) (p : List Char)
    (rest : List (List Char)) (hp : p = [] ∨ p = ['0']) :
    update_attr_params d s (p :: rest) =
      update_attr_params d (reset_attr d) rest ∧
    reset_attr d =
      { fg := d.foreground, bg := d.background, bold := d.boldB,
        italics := false, underline := d.underlineB, blink := false,
        standout := d.underlineB, strikethrough := false } ∧
    init_attr d = reset_attr d :=
  ⟨uap_step_reset d s rest hp, rfl, rfl⟩

/-- C5 witness: the reset at a concrete default attribute whose underline
flag is set, showing standout seeded from it. -/
theorem claim_C5_reset_witness :
    update_attr_params ⟨"default,underline".data, "default".data⟩
        (init_attr ⟨"default,underline".data, "default".data⟩) [['0']] =
      update_attr_params ⟨"default,underline".data, "default".data⟩
        (reset_attr ⟨"default,underline".data, "default".data⟩) [] :=
  (claim_C5_reset ⟨"default,underline".data, "default".data⟩
    (init_attr ⟨"default,underline".data, "default".data⟩) ['0'] []
    (Or.inr rfl)).1

/-! Claim C7. -/

set_option maxRecDepth 2048 in
/-- `{:02x}` of a byte value is two lowercase hex digits. -/
theorem py_hex2_bounds :
    ∀ n, n < 256 →
      (py_hex2 n).length = 2 ∧ ∀ c ∈ py_hex2 n, c ∈ "0123456789abcdef".data := by
  decide

/-- C7: an SGR `38;2;r;g;b` with integer components makes the foreground
the lowercase `#rrggbb` hex string, each component rendered with two
lowercase hex digits; in particular `ESC[38;2;10;20;30m` followed by `X`
yields a run whose foreground is `#0a141e`. -/
theorem claim_C7_truecolor (d : AttrSpec) (s : AttrState)
    (tr tg tb : List Char) (r g b : Nat) (rest : List (List Char))
    (hr : to_int? tr = some r) (hg : to_int? tg = some g)
    (hb : to_int? tb = some b) (hr2 : r < 256) (hg2 : g < 256)
    (hb2 : b < 256) :
    update_attr_params d s ("38".data :: "2".data :: tr :: tg :: tb :: rest) =
      update_attr_params d
        { s with fg := '#' :: (py_hex2 r ++ py_hex2 g ++ py_hex2 b) } rest ∧
    (py_hex2 r).length = 2 ∧ (py_hex2 g).length = 2 ∧
    (py_hex2 b).length = 2 ∧
    (∀ c ∈ py_hex2 r, c ∈ "0123456789abcdef".data) ∧
    (∀ c ∈ py_hex2 g, c ∈ "0123456789abcdef".data) ∧
    (∀ c ∈ py_hex2 b, c ∈ "0123456789abcdef".data) ∧
    (parse_escapes_to_urwid "\x1b[38;2;10;20;30mX".data
        ⟨"default".data, "default".data⟩ (0 : Nat) true).1 =
      [(⟨"#0a141e".data, "default".data⟩, "X".data)] := by
  refine ⟨?_, (py_hex2_bounds r hr2).1, (py_hex2_bounds g hg2).1,
    (py_hex2_bounds b hb2).1, (py_hex2_bounds r hr2).2,
    (py_hex2_bounds g hg2).2, (py_hex2_bounds b hb2).2, by decide⟩
  rw [show ("2".data : List Char) = ['2'] from rfl,
    uap_step_color2 d s tr tg tb rest (Or.inl rfl), hr, hg, hb]
  rfl

/-- C7 witness: the truecolor conversion at components 10, 20, 30. -/
theorem claim_C7_truecolor_witness :
    update_attr_params ⟨"default".data, "default".data⟩
        (init_attr ⟨"default".data, "default".data⟩)
        ("38".data :: "2".data :: "10".data :: "20".data :: "30".data :: []) =
      update_attr_params ⟨"default".data, "default".data⟩
        { init_attr ⟨"default".data, "default".data⟩ with
          fg := '#' :: (py_hex2 10 ++ py_hex2 20 ++ py_hex2 30) } [] ∧
    (py_hex2 10).length = 2 :=
  ⟨(claim_C7_truecolor ⟨"default".data, "default".data⟩
      (init_attr ⟨"default".data, "default".data⟩) "10".data "20".data
      "30".data 10 20 30 [] (by decide) (by decide) (by decide) (by decide)
      (by decide) (by decide)).1,
   (claim_C7_truecolor ⟨"default".data, "default".data⟩
      (init_attr ⟨"default".data, "default".data⟩) "10".data "20".data
      "30".data 10 20 30 [] (by decide) (by decide) (by decide) (by decide)
      (by decide) (by decide)).2.1⟩

/-! Claim C8. -/

/-- C8: an SGR `38;5;n` makes the foreground the string `h` followed by the
index token; in particular `ESC[38;5;200m` followed by `X` yields a run
whose foreground is `h200`. -/
theorem claim_C8_indexed (d : AttrSpec) (s : AttrState) (t : List Char)
    (rest : List (List Char)) :
    update_attr_params d s ("38".data :: "5".data :: t :: rest) =
      update_attr_params d { s with fg := 'h' :: t } rest ∧
    (parse_escapes_to_urwid "\x1b[38;5;200mX".data
        ⟨"default".data, "default".data⟩ (0 : Nat) true).1 =
      [(⟨"h200".data, "default".data⟩, "X".data)] := by
  refine ⟨?_, by decide⟩
  rw [show ("5".data : List Char) = ['5'] from rfl,
    uap_step_color5 d s t rest (Or.inl rfl)]
  rfl

/-! Claim C9. -/

/-- C9: the index token after `38;5` is not validated — any token `t`, even
one that is not a decimal integer or is outside 0–255, becomes the color
string `h` concatenated with `t` verbatim, and parsing continues without
error; e.g. `hfoo` and `h999`. -/
theorem claim_C9_no_validation (d : AttrSpec) (s : AttrState) (t : List Char)
    (h1 : t ≠ []) (h2 : ';' ∉ t) :
    update_attr d s ("38;5;".data ++ t) [] 'm' = { s with fg := 'h' :: t } ∧
    update_attr d s "38;5;foo".data [] 'm' = { s with fg := "hfoo".data } ∧
    (parse_escapes_to_urwid "\x1b[38;5;999mX".data
        ⟨"default".data, "default".data⟩ (0 : Nat) true).1 =
      [(⟨"h999".data, "default".data⟩, "X".data)] := by
  refine ⟨?_, rfl, by decide⟩
  show update_attr_params d s
      ((splitOnChar ';' ("38;5;".data ++ t)).map
        (fun v => if v = [] then ['0'] else v)) = _
  have hsplit : splitOnChar ';' ("38;5;".data ++ t) = ["38".data, ['5'], t] := by
    rw [show ("38;5;".data ++ t) = "38".data ++ ';' :: ("5".data ++ ';' :: t)
        from rfl,
      splitOnChar_append, splitOnChar_append, splitOnChar_no_sep h2]
    rfl
  rw [hsplit]
  have hmap : (["38".data, ['5'], t]).map (fun v => if v = [] then ['0'] else v) =
      ["38".data, ['5'], t] := by
    simp [h1]
  rw [hmap, show (["38".data, ['5'], t] : List (List Char)) =
      "38".data :: ['5'] :: t :: [] from rfl,
    uap_step_color5 d s t [] (Or.inl rfl)]
  rfl

/-- C9 witness: the verbatim non-integer token `foo`. -/
theorem claim_C9_no_validation_witness :
    update_attr ⟨"default".data, "default".data⟩
        (init_attr ⟨"default".data, "default".data⟩)
        ("38;5;".data ++ "foo".data) [] 'm' =
      { init_attr ⟨"default".data, "default".data⟩ with
        fg := 'h' :: "foo".data } :=
  (claim_C9_no_validation ⟨"default".data, "default".data⟩
    (init_attr ⟨"default".data, "default".data⟩) "foo".data (by decide)
    (by decide)).1

/-! Claim C6. -/

/-- C6 fails as stated at the empty string: it contains no ESC byte and
strips to itself, but styling yields zero runs, not exactly one, because
`append_themed_infix` bails on empty text. -/
theorem claim_C6_counterexample :
    strip_ansi_escapes ([] : List Char) = [] ∧
    (parse_escapes_to_urwid ([] : List Char)
        ⟨"default".data, "default".data⟩ (0 : Nat) true).1 = [] ∧
    ((parse_escapes_to_urwid ([] : List Char)
        ⟨"default".data, "default".data⟩ (0 : Nat) true).1).length ≠ 1 := by
  decide

/-- C6 (amended): for every NON-EMPTY string without an ESC byte, stripping
is the identity and styling yields exactly one run carrying the whole
string, with the attribute built from DefaultAttr's values (the themed form
of the seeded initial state). -/
theorem claim_C6_amended {α : Type} (d : AttrSpec) (dF : α) (pbg : Bool)
    (s : List Char) (h1 : s ≠ []) (h2 : ESCc ∉ s) :
    strip_ansi_escapes s = s ∧
    (parse_escapes_to_urwid s d dF pbg).1 =
      [(themed_attr d pbg (init_attr d), s)] := by
  refine ⟨strip_no_esc h2, ?_⟩
  unfold parse_escapes_to_urwid
  rw [parse_no_esc h2]
  simp [process_segs, h1]

/-- C6 witness: the plain-text round trip on `"hi"`. -/
theorem claim_C6_witness :
    strip_ansi_escapes "hi".data = "hi".data ∧
    (parse_escapes_to_urwid "hi".data ⟨"default".data, "default".data⟩
        (0 : Nat) true).1 =
      [(themed_attr ⟨"default".data, "default".data⟩ true
          (init_attr ⟨"default".data, "default".data⟩), "hi".data)] :=
  claim_C6_amended ⟨"default".data, "default".data⟩ 0 true "hi".data
    (by decide) (by decide)

/-! Claim C10. -/

/-- Dict assignment with the fixed value preserves the all-values-fixed
invariant of the focus mapping. -/
theorem focus_put_vals {α : Type} {dF : α} {m : List (Option AttrSpec × α)}
    (k : Option AttrSpec) (hm : ∀ kv ∈ m, kv.2 = dF) :
    ∀ kv ∈ focus_put m k dF, kv.2 = dF := by
  intro kv hkv
  unfold focus_put at hkv
  by_cases hany : m.any (fun e => decide (e.1 = k))
  · rw [if_pos hany] at hkv
    obtain ⟨e, he, rfl⟩ := List.mem_map.mp hkv
    by_cases hek : e.1 = k
    · simp [hek]
    · simp only [if_neg hek]
      exact hm e he
  · rw [if_neg hany] at hkv
    rcases List.mem_append.mp hkv with h | h
    · exact hm kv h
    · simp only [List.mem_singleton] at h
      subst h
      rfl

/-- Every value of the focus mapping built by the segment loop is the
caller's `default_attr_focus`. -/
theorem process_segs_vals {α : Type} (d : AttrSpec) (dF : α) (pbg : Bool) :
    ∀ (segs : List Seg) (s : AttrState) (runs : List (AttrSpec × List Char))
      (focus : List (Option AttrSpec × α)),
      (∀ kv ∈ focus, kv.2 = dF) →
      ∀ kv ∈ (process_segs d dF pbg s runs focus segs).2, kv.2 = dF := by
  intro segs
  induction segs with
  | nil => intro s runs focus h kv hkv; exact h kv hkv
  | cons seg rest ih =>
    intro s runs focus h kv hkv
    simp only [process_segs] at hkv
    by_cases ht : seg.txt = []
    · rw [if_pos ht] at hkv
      exact ih _ _ _ h kv hkv
    · rw [if_neg ht] at hkv
      exact ih _ _ _ (focus_put_vals _ h) kv hkv

/-- C10: the focus map returned by `parse_escapes_to_urwid` is
constant-valued — every key (the initial `None` key and each attribute
encountered) maps to the single caller-supplied `default_attr_focus`. -/
theorem claim_C10_focus_constant {α : Type} (text : List Char) (d : AttrSpec)
    (dF : α) (pbg : Bool) :
    ∀ kv ∈ (parse_escapes_to_urwid text d dF pbg).2, kv.2 = dF := by
  refine process_segs_vals d dF pbg (parse_ansi_escapes text) (init_attr d)
    [] [(none, dF)] ?_
  intro kv hkv
  simp only [List.mem_singleton] at hkv
  subst hkv
  rfl

/-- C10 witness: a concrete entry of a concrete focus map carries the
caller-supplied focus value. -/
theorem claim_C10_focus_constant_witness :
    ((some (⟨"default".data, "default".data⟩ : AttrSpec), (7 : Nat))).2 = 7 :=
  claim_C10_focus_constant "x".data ⟨"default".data, "default".data⟩ 7 true
    (some ⟨"default".data, "default".data⟩, 7) (by decide)

/-! Claim C4. -/

/-- The CSI groups of the reset escape body `0m` followed by anything. -/
theorem csi_groups_0m (T : List Char) :
    csi_groups ('0' :: 'm' :: T) = some (⟨['0'], [], 'm'⟩, T) := rfl

/-- Tokenization of `ESC[0m` followed by escape-free text. -/
theorem parse_reset_text {T : List Char} (h : ESCc ∉ T) :
    parse_ansi_escapes (ESCc :: '[' :: '0' :: 'm' :: T) =
      [⟨none, none, []⟩, ⟨some '[', some ⟨['0'], [], 'm'⟩, T⟩] := by
  unfold parse_ansi_escapes
  have hlen : (ESCc :: '[' :: '0' :: 'm' :: T).length + 1 =
      (T.length + 4) + 1 := by simp
  rw [hlen, scan_csi_step (csi_groups_0m T) (T.length + 4) none none [],
    scan_no_esc h]
  simp

/-- Styling `ESC[0m` followed by non-empty escape-free text `T` yields one
run: `T` with the themed form of the reset state. -/
theorem urwid_reset_text {α : Type} (d : AttrSpec) (dF : α) (pbg : Bool)
    {T : List Char} (h1 : T ≠ []) (h2 : ESCc ∉ T) :
    (parse_escapes_to_urwid (ESCc :: '[' :: '0' :: 'm' :: T) d dF pbg).1 =
      [(themed_attr d pbg (reset_attr d), T)] := by
  unfold parse_escapes_to_urwid
  rw [parse_reset_text h2]
  have hupd : update_attr d (init_attr d) ['0'] [] 'm' = reset_attr d := rfl
  simp [process_segs, hupd, h1]

/-- The themed form of the reset state agrees with DefaultAttr on the
foreground color parts, the background and the bold and underline flags,
and its standout flag is DefaultAttr's standout OR underline. -/
theorem themed_reset_props (d : AttrSpec) (pbg : Bool) :
    fg_color_parts (themed_attr d pbg (reset_attr d)) = fg_color_parts d ∧
    (themed_attr d pbg (reset_attr d)).background = d.background ∧
    ((themed_attr d pbg (reset_attr d)).bold ↔ d.bold) ∧
    ((themed_attr d pbg (reset_attr d)).underline ↔ d.underline) ∧
    ((themed_attr d pbg (reset_attr d)).standout ↔
      (d.standout ∨ d.underline)) := by
  have hbg : (themed_attr d pbg (reset_attr d)).background = d.background := by
    simp [themed_attr, reset_attr, AttrSpec.background]
  by_cases hb : d.bold <;> by_cases hu : d.underline
  · have hb' : "bold".data ∈ fg_parts d := hb
    have hu' : "underline".data ∈ fg_parts d := hu
    have hfg : (themed_attr d pbg (reset_attr d)).fg =
        d.fg ++ ',' :: "bold,underline,standout".data := by
      show d.fg ++ mods_suffix (reset_attr d) = _
      simp [mods_suffix, reset_attr, AttrSpec.boldB, AttrSpec.underlineB,
        decide_eq_true hb, decide_eq_true hu]
    have hparts : fg_parts (themed_attr d pbg (reset_attr d)) =
        fg_parts d ++ ["bold".data, "underline".data, "standout".data] := by
      unfold fg_parts
      rw [hfg, splitOnChar_append,
        show splitOnChar ',' ("bold,underline,standout".data) =
          ["bold".data, "underline".data, "standout".data] by decide]
    refine ⟨?_, hbg, ?_, ?_, ?_⟩
    · unfold fg_color_parts
      rw [hparts, List.filter_append,
        show (["bold".data, "underline".data, "standout".data].filter
          (fun p => decide (p ∉ flag_words))) = [] by decide]
      simp
    · show ("bold".data ∈ fg_parts (themed_attr d pbg (reset_attr d))) ↔ _
      rw [hparts]
      simp [List.mem_append, hb']
    · show ("underline".data ∈ fg_parts (themed_attr d pbg (reset_attr d))) ↔ _
      rw [hparts]
      simp [List.mem_append, hu']
    · show ("standout".data ∈ fg_parts (themed_attr d pbg (reset_attr d))) ↔ _
      rw [hparts]
      simp [List.mem_append, hu']
  · have hb' : "bold".data ∈ fg_parts d := hb
    have hu' : ¬("underline".data ∈ fg_parts d) := hu
    have hfg : (themed_attr d pbg (reset_attr d)).fg =
        d.fg ++ ',' :: "bold".data := by
      show d.fg ++ mods_suffix (reset_attr d) = _
      simp [mods_suffix, reset_attr, AttrSpec.boldB, AttrSpec.underlineB,
        decide_eq_true hb, decide_eq_false hu]
    have hparts : fg_parts (themed_attr d pbg (reset_attr d)) =
        fg_parts d ++ ["bold".data] := by
      unfold fg_parts
      rw [hfg, splitOnChar_append,
        show splitOnChar ',' ("bold".data) = ["bold".data] by decide]
    refine ⟨?_, hbg, ?_, ?_, ?_⟩
    · unfold fg_color_parts
      rw [hparts, List.filter_append,
        show (["bold".data].filter (fun p => decide (p ∉ flag_words))) = []
          by decide]
      simp
    · show ("bold".data ∈ fg_parts (themed_attr d pbg (reset_attr d))) ↔ _
      rw [hparts]
      simp [List.mem_append, hb']
    · show ("underline".data ∈ fg_parts (themed_attr d pbg (reset_attr d))) ↔ _
      rw [hparts]
      simp [List.mem_append]
    · show ("standout".data ∈ fg_parts (themed_attr d pbg (reset_attr d))) ↔ _
      rw [hparts]
      simp [List.mem_append, hu']
  · have hb' : ¬("bold".data ∈ fg_parts d) := hb
    have hu' : "underline".data ∈ fg_parts d := hu
    have hfg : (themed_attr d pbg (reset_attr d)).fg =
        d.fg ++ ',' :: "underline,standout".data := by
      show d.fg ++ mods_suffix (reset_attr d) = _
      simp [mods_suffix, reset_attr, AttrSpec.boldB, AttrSpec.underlineB,
        decide_eq_false hb, decide_eq_true hu]
    have hparts : fg_parts (themed_attr d pbg (reset_attr d)) =
        fg_parts d ++ ["underline".data, "standout".data] := by
      unfold fg_parts
      rw [hfg, splitOnChar_append,
        show splitOnChar ',' ("underline,standout".data) =
          ["underline".data, "standout".data] by decide]
    refine ⟨?_, hbg, ?_, ?_, ?_⟩
    · unfold fg_color_parts
      rw [hparts, List.filter_append,
        show (["underline".data, "standout".data].filter
          (fun p => decide (p ∉ flag_words))) = [] by decide]
      simp
    · show ("bold".data ∈ fg_parts (themed_attr d pbg (reset_attr d))) ↔ _
      rw [hparts]
      simp [List.mem_append]
    · show ("underline".data ∈ fg_parts (themed_attr d pbg (reset_attr d))) ↔ _
      rw [hparts]
      simp [List.mem_append, hu']
    · show ("standout".data ∈ fg_parts (themed_attr d pbg (reset_attr d))) ↔ _
      rw [hparts]
      simp [List.mem_append, hu']
  · have hu' : ¬("underline".data ∈ fg_parts d) := hu
    have hfg : (themed_attr d pbg (reset_attr d)).fg = d.fg := by
      show d.fg ++ mods_suffix (reset_attr d) = _
      simp [mods_suffix, reset_attr, AttrSpec.boldB, AttrSpec.underlineB,
        decide_eq_false hb, decide_eq_false hu]
    have hparts : fg_parts (themed_attr d pbg (reset_attr d)) = fg_parts d := by
      unfold fg_parts
      rw [hfg]
    refine ⟨?_, hbg, ?_, ?_, ?_⟩
    · unfold fg_color_parts
      rw [hparts]
    · show ("bold".data ∈ fg_parts (themed_attr d pbg (reset_attr d))) ↔ _
      rw [hparts]
    · show ("underline".data ∈ fg_parts (themed_attr d pbg (reset_attr d))) ↔ _
      rw [hparts]
    · show ("standout".data ∈ fg_parts (themed_attr d pbg (reset_attr d))) ↔ _
      rw [hparts]
      simp [hu']

/-- C4 fails as stated: with a DefaultAttr whose underline flag is set but
whose standout flag is not, the run emitted for `ESC[0mX` carries an
attribute whose standout flag IS set (the reset seeds standout from the
default underline flag), so the attribute does not equal DefaultAttr on its
standout value. -/
theorem claim_C4_counterexample :
    (parse_escapes_to_urwid "\x1b[0mX".data
        ⟨"default,underline".data, "default".data⟩ (0 : Nat) true).1 =
      [(⟨"default,underline,underline,standout".data, "default".data⟩,
        "X".data)] ∧
    AttrSpec.standout
      (⟨"default,underline,underline,standout".data, "default".data⟩ :
        AttrSpec) ∧
    ¬ AttrSpec.standout
      (⟨"default,underline".data, "default".data⟩ : AttrSpec) := by
  refine ⟨by decide, by decide, by decide⟩

/-- C4 (amended): for `ESC[0m` followed by non-empty escape-free text `T`,
the single emitted run carries `T` with an attribute that equals
DefaultAttr on foreground color, background, bold and underline, while its
standout flag is DefaultAttr's standout OR underline (the reset seeds
standout from the default underline flag); it therefore equals DefaultAttr
exactly on all five values iff DefaultAttr's underline implies its
standout. -/
theorem claim_C4_amended {α : Type} (d : AttrSpec) (dF : α) (pbg : Bool)
    (T : List Char) (h1 : T ≠ []) (h2 : ESCc ∉ T) :
    ∃ A : AttrSpec,
      (parse_escapes_to_urwid (ESCc :: '[' :: '0' :: 'm' :: T) d dF pbg).1 =
        [(A, T)] ∧
      fg_color_parts A = fg_color_parts d ∧
      A.background = d.background ∧
      (A.bold ↔ d.bold) ∧
      (A.underline ↔ d.underline) ∧
      (A.standout ↔ (d.standout ∨ d.underline)) :=
  ⟨themed_attr d pbg (reset_attr d), urwid_reset_text d dF pbg h1 h2,
    themed_reset_props d pbg⟩

/-- C4 witness: the reset escape before the concrete text `X`. -/
theorem claim_C4_witness :
    ∃ A : AttrSpec,
      (parse_escapes_to_urwid (ESCc :: '[' :: '0' :: 'm' :: "X".data)
          ⟨"default".data, "default".data⟩ (0 : Nat) true).1 =
        [(A, "X".data)] ∧
      fg_color_parts A = fg_color_parts ⟨"default".data, "default".data⟩ ∧
      A.background = AttrSpec.background ⟨"default".data, "default".data⟩ ∧
      (A.bold ↔ AttrSpec.bold ⟨"default".data, "default".data⟩) ∧
      (A.underline ↔ AttrSpec.underline ⟨"default".data, "default".data⟩) ∧
      (A.standout ↔ (AttrSpec.standout ⟨"default".data, "default".data⟩ ∨
        AttrSpec.underline ⟨"default".data, "default".data⟩)) :=
  claim_C4_amended ⟨"default".data, "default".data⟩ 0 true "X".data
    (by decide) (by decide)

end AlotAnsi
